import Mathlib

/-!
Shallow embedding of the `MediaAccordion` front-end controller
(`src/media-accordion/media-accordion.js`) together with the parts of its
configuration (`constants.js`) that the verified properties need.

Modelling conventions:
* machine time (`Date.now()`) is a natural number passed into every event
  handler as `now`;
* `setTimeout` handles are modelled explicitly: `pending` is the list of
  live timers, each a pair `(id, absolute fire time)`; the class field
  `timeoutId` holds the id of the most recently armed timer, exactly as the
  JS field holds the most recent handle.  `clearTimeout` removes only the
  timer named by the handle; a fired timer removes itself before its
  callback runs;
* the per-item CSS duration read (`getAnimationDuration` on the live DOM)
  is abstracted as an environment function `dur : Nat → Nat` from item
  index to milliseconds; the string-parsing pipeline of
  `getAnimationDuration` itself is modelled separately at the end of the
  definitions, over the CSS value string;
* DOM class lists are modelled by the two per-item flags the controller
  toggles (`active`, paused modifier); media swapping, video playback and
  the pause-button label touch no controller state and are noted in
  comments where the source performs them;
* `Utils.isLandscapeOrSquare()` and `Utils.isElementVisible(...)` are
  environment booleans (`wide`, `ev`) supplied with each event.
-/

namespace MediaAccordion

/-- DOM-visible per-item state: the `active` class and the
`...item--paused` modifier class toggled by the controller. -/
structure Item where
  active : Bool
  paused : Bool
deriving DecidableEq, Repr

instance : Inhabited Item := ⟨⟨false, false⟩⟩

/-- Default item used by `List.getD` lookups. -/
def dItem : Item := ⟨false, false⟩

/-- State of one `MediaAccordion` instance: the class fields of the JS
class, with the DOM item list as `items` and the live-timer bookkeeping
(`pending`, `nextId`) described in the file header. -/
structure Acc where
  items : List Item
  currentIndex : Nat
  timeoutId : Option Nat
  isPaused : Bool
  remainingTime : Nat
  startTime : Nat
  duration : Nat
  slider : Bool
  isVisible : Bool
  wasUserPaused : Bool
  hasStartedAnimation : Bool
  autoplayEnabled : Bool
  isLayout2 : Bool
  pending : List (Nat × Nat)
  nextId : Nat
deriving DecidableEq, Repr

/-- Point update of one DOM item (models `items[i].classList.add/remove`);
out-of-range indices leave the list unchanged, mirroring the guarded
accesses in the source. -/
def modifyItem : List Item → Nat → (Item → Item) → List Item
  | [], _, _ => []
  | it :: rest, 0, f => f it :: rest
  | it :: rest, n + 1, f => it :: modifyItem rest n f

/-- `clearTimer()`: cancel the timer named by `this.timeoutId` (only that
one) and null the handle. -/
def clearTimer (s : Acc) : Acc :=
  match s.timeoutId with
  | some id =>
      { s with pending := s.pending.filter (fun p => p.1 != id), timeoutId := none }
  | none => s

/-- `this.timeoutId = setTimeout(cb, delay)`: arm a fresh timer and store
its handle, without cancelling any previously armed timer. -/
def setTimeout (now delay : Nat) (s : Acc) : Acc :=
  { s with
    pending := s.pending ++ [(s.nextId, now + delay)]
    timeoutId := some s.nextId
    nextId := s.nextId + 1 }

/-- `updateActiveItem(index, updateSlider)`: strip `active` and the paused
modifier from every item, mark `items[index]` active, re-add the paused
modifier there when `isPaused`, and record `currentIndex`.
(`slider.moveToIdx` touches no modelled state; a resulting `slideChanged`
notification is a separate event.) -/
def updateActiveItem (index : Nat) (_updateSlider : Bool) (s : Acc) : Acc :=
  let items := s.items.map (fun it => { it with active := false, paused := false })
  let items := modifyItem items index (fun it => { it with active := true })
  let items :=
    if s.isPaused then modifyItem items index (fun it => { it with paused := true })
    else items
  { s with items := items, currentIndex := index }

/-- `scheduleNextItem()`: no-op when paused or not visible; otherwise read
the current item's duration, stamp `startTime`, reset `remainingTime` to
the full duration, and arm the auto-advance timer. -/
def scheduleNextItem (dur : Nat → Nat) (now : Nat) (s : Acc) : Acc :=
  if s.isPaused || !s.isVisible then s
  else
    let d := dur s.currentIndex
    setTimeout now d { s with duration := d, startTime := now, remainingTime := d }

/-- `showItem(index, updateSlider)`: silent return for out-of-range
indices; otherwise clear the tracked timer, activate the item
(`updateMediaContent` touches no modelled state) and schedule the next
advance. -/
def showItem (dur : Nat → Nat) (now : Nat) (index : Int) (updateSlider : Bool)
    (s : Acc) : Acc :=
  if index < 0 || (s.items.length : Int) ≤ index then s
  else
    let s := clearTimer s
    let s := updateActiveItem index.toNat updateSlider s
    scheduleNextItem dur now s

/-- `pauseAnimation()`: visibility-driven pause.  Only acts when running:
set `isPaused`, cancel the tracked timer, snapshot
`remainingTime = max(0, duration - elapsed)`, and add the paused modifier
to the current item (`handleVideoPlayback` touches no modelled state). -/
def pauseAnimation (now : Nat) (s : Acc) : Acc :=
  if !s.isPaused then
    let s := clearTimer { s with isPaused := true }
    let elapsed := now - s.startTime
    let s := { s with remainingTime := max 0 (s.duration - elapsed) }
    { s with items := modifyItem s.items s.currentIndex (fun it => { it with paused := true }) }
  else s

/-- `resumeAnimation()`: visibility-driven resume.  First branch: paused
and not user-paused — clear `isPaused`, then either first-ever start
(schedule full duration) or re-arm a timer for the snapshotted
`remainingTime`; strip the paused modifier.  Second branch: already
running, not user-paused, `remainingTime === 0` — schedule again (the
source comments this as the first-time start path). -/
def resumeAnimation (dur : Nat → Nat) (now : Nat) (s : Acc) : Acc :=
  if s.isPaused && !s.wasUserPaused then
    let s := { s with isPaused := false }
    let s :=
      if !s.hasStartedAnimation then
        scheduleNextItem dur now { s with hasStartedAnimation := true }
      else
        setTimeout now s.remainingTime { s with startTime := now }
    { s with items := modifyItem s.items s.currentIndex (fun it => { it with paused := false }) }
  else if !s.isPaused && !s.wasUserPaused && s.remainingTime == 0 then
    scheduleNextItem dur now s
  else s

/-- `initSlider()`: no-op when a slider already exists; when the element
fails the visibility check the source only re-registers with the (external)
visibility manager; otherwise construct the carousel.  Only the `slider`
flag is modelled controller state. -/
def initSlider (ev : Bool) (s : Acc) : Acc :=
  if s.slider then s
  else if !ev then s
  else { s with slider := true }

/-- `destroySlider()`. -/
def destroySlider (s : Acc) : Acc :=
  if s.slider then { s with slider := false } else s

/-- `onVisibilityChange(isVisible)`: record visibility; on becoming
visible, lazily build the slider in narrow mode and auto-resume unless
user-paused; on becoming invisible, `pauseAnimation`. -/
def onVisibilityChange (dur : Nat → Nat) (now : Nat) (visible wide ev : Bool)
    (s : Acc) : Acc :=
  let s := { s with isVisible := visible }
  if visible then
    let s := if !wide && !s.slider then initSlider ev s else s
    if !s.wasUserPaused then resumeAnimation dur now s else s
  else
    pauseAnimation now s

/-- `handleOrientationChange()` (debounced resize/orientation handler):
wide mode tears the slider down; narrow and visible builds it;
`refreshSlider` touches no modelled state. -/
def handleOrientationChange (wide ev : Bool) (s : Acc) : Acc :=
  if wide then destroySlider s
  else if !s.slider && s.isVisible then initSlider ev s
  else s

/-- `pause()`: user pause.  Idempotent; sets `wasUserPaused`, cancels the
tracked timer, snapshots the remaining time only when the animation has
started, and adds the paused modifier (`updatePauseButton` and
`handleVideoPlayback` touch no modelled state). -/
def pause (now : Nat) (s : Acc) : Acc :=
  if s.isPaused then s
  else
    let s := clearTimer { s with wasUserPaused := true, isPaused := true }
    let s :=
      if s.hasStartedAnimation then
        { s with remainingTime := max 0 (s.duration - (now - s.startTime)) }
      else s
    { s with items := modifyItem s.items s.currentIndex (fun it => { it with paused := true }) }

/-- `resume()`: user resume.  Idempotent; clears both pause flags; only
when visible, either first-ever start (full duration) or re-arm the
snapshotted `remainingTime`; strips the paused modifier. -/
def resume (dur : Nat → Nat) (now : Nat) (s : Acc) : Acc :=
  if !s.isPaused then s
  else
    let s := { s with wasUserPaused := false, isPaused := false }
    let s :=
      if s.isVisible then
        if !s.hasStartedAnimation then
          scheduleNextItem dur now { s with hasStartedAnimation := true }
        else
          setTimeout now s.remainingTime { s with startTime := now }
      else s
    { s with items := modifyItem s.items s.currentIndex (fun it => { it with paused := false }) }

/-- `togglePause()` (the trailing `handleVideoPlayback` touches no modelled
state). -/
def togglePause (dur : Nat → Nat) (now : Nat) (s : Acc) : Acc :=
  if s.isPaused then resume dur now s else pause now s

/-- `handleItemClick(itemButton)`: `found` is whether
`closest(ACCORDION_ITEM)` produced an item, `idx` the `indexOf` result
(`-1` when the item is not in this accordion's list).  Bails when no item
resolves or the viewport is narrow; navigates only when the index is found
and differs from `currentIndex`. -/
def handleItemClick (dur : Nat → Nat) (now : Nat) (wide found : Bool) (idx : Int)
    (s : Acc) : Acc :=
  if !found || !wide then s
  else if idx != -1 && idx != (s.currentIndex : Int) then
    showItem dur now idx true s
  else s

/-- `handleMouseEnterItem(e)`: when the hover target resolves to an item
button, delegate to `handleItemClick`. -/
def handleMouseEnterItem (dur : Nat → Nat) (now : Nat) (wide btnFound found : Bool)
    (idx : Int) (s : Acc) : Acc :=
  if btnFound then handleItemClick dur now wide found idx s else s

/-- Timer fire: a live timer whose fire time has been reached is removed
and its callback `showItem((currentIndex + 1) % items.length)` runs, the
index read at fire time exactly as the JS closure reads `this`. -/
def fireTimer (dur : Nat → Nat) (now id : Nat) (s : Acc) : Acc :=
  match s.pending.find? (fun p => p.1 == id) with
  | some (_, t) =>
      if t ≤ now then
        let s := { s with pending := s.pending.filter (fun p => p.1 != id) }
        showItem dur now (((s.currentIndex + 1) % s.items.length : Nat) : Int) true s
      else s
  | none => s

/-- The constructor: field initialisers plus the autoplay handling —
autoplay disabled starts user-paused so visibility cannot auto-resume. -/
def mkAccordion (n : Nat) (autoplay layout2 : Bool) : Acc :=
  { items := List.replicate n dItem
    currentIndex := 0
    timeoutId := none
    isPaused := true
    remainingTime := 0
    startTime := 0
    duration := 0
    slider := false
    isVisible := false
    wasUserPaused := !autoplay
    hasStartedAnimation := false
    autoplayEnabled := autoplay
    isLayout2 := layout2
    pending := []
    nextId := 0 }

/-- `init()`: dormant when there are no items; otherwise activate item 0
without starting the animation (`updateMediaContent`, `updatePauseButton`
and the visibility-manager registration touch no modelled state) and build
the slider when in narrow mode with a visible element. -/
def initAccordion (wide ev : Bool) (s : Acc) : Acc :=
  if s.items.length == 0 then s
  else
    let s := updateActiveItem 0 false s
    if !wide && ev then initSlider ev s else s

/-- One external event delivered to an instance: the six entry points of
the claims plus the slider's `slideChanged` notification and the resize
handler.  Mouseenter listeners are only attached for the `is-layout-2`
variant, so the hover event is gated on that flag. -/
inductive Op where
  | visibility (now : Nat) (visible wide ev : Bool)
  | userPause (now : Nat)
  | userResume (now : Nat)
  | togglePauseBtn (now : Nat)
  | click (now : Nat) (wide found : Bool) (idx : Int)
  | hover (now : Nat) (wide btnFound found : Bool) (idx : Int)
  | slideChanged (now : Nat) (idx : Nat)
  | fire (now id : Nat)
  | resize (wide ev : Bool)
deriving DecidableEq, Repr

/-- Dispatch one event to the corresponding handler. -/
def applyOp (dur : Nat → Nat) (s : Acc) : Op → Acc
  | .visibility now v w ev => onVisibilityChange dur now v w ev s
  | .userPause now => pause now s
  | .userResume now => resume dur now s
  | .togglePauseBtn now => togglePause dur now s
  | .click now w f i => handleItemClick dur now w f i s
  | .hover now w bf f i =>
      if s.isLayout2 then handleMouseEnterItem dur now w bf f i s else s
  | .slideChanged now i => showItem dur now (i : Int) false s
  | .fire now id => fireTimer dur now id s
  | .resize w ev => handleOrientationChange w ev s

/-- Run a sequence of events. -/
def run (dur : Nat → Nat) (s : Acc) (ops : List Op) : Acc :=
  ops.foldl (applyOp dur) s

/-- Constant 3000 ms per-item duration environment, used by the concrete
traces below. -/
def dur3000 : Nat → Nat := fun _ => 3000

/-- Per-item durations of the spec's worked example: items 0,1,2 last
3000, 5000 and 2000 ms. -/
def exampleDur : Nat → Nat := fun i => if i = 0 then 3000 else if i = 1 then 5000 else 2000

/-- A two-item autoplaying accordion, wide viewport, after `init`. -/
def wideStart : Acc := initAccordion true true (mkAccordion 2 true false)

/-- Trace: become visible at t=0 (timer armed for t=3000), user pause at
t=4000 (timer already due but not yet fired, remaining time snapshots to
0), user resume at t=4000 (a zero-delay timer is armed), then a redundant
visible notification at t=4000. -/
def dupTimerOps : List Op :=
  [Op.visibility 0 true true true, Op.userPause 4000, Op.userResume 4000,
   Op.visibility 4000 true true true]

/-- The state after `dupTimerOps`. -/
def dupTimerState : Acc := run dur3000 wideStart dupTimerOps

/-- Continue `dupTimerOps`: the accordion scrolls out of view at t=4000. -/
def invisibleTimerState : Acc := run dur3000 dupTimerState [Op.visibility 4000 false true true]

/-- Continue further: the stale zero-delay timer (id 1) fires at t=4000
while the accordion is not visible. -/
def invisibleAdvanceState : Acc := run dur3000 invisibleTimerState [Op.fire 4000 1]

/-- A two-item autoplaying accordion in narrow (carousel) mode, visible
and running since t=0. -/
def carouselState : Acc :=
  run dur3000 (initAccordion false true (mkAccordion 2 true false)) [Op.visibility 0 true false true]

/-- A two-item layout-2 accordion in narrow mode, visible and running
since t=0. -/
def hoverLayoutState : Acc :=
  run dur3000 (initAccordion false true (mkAccordion 2 true true)) [Op.visibility 0 true false true]

/-- The spec's worked example advanced to item 1: three items with
durations [3000, 5000, 2000], visible from t=0, item-0 timer fired at
t=3000; item 1 is active with its 5000 ms timer due at t=8000. -/
def exampleRunState : Acc :=
  run exampleDur (initAccordion true true (mkAccordion 3 true false))
    [Op.visibility 0 true true true, Op.fire 3000 0]

/-- A two-item accordion constructed with autoplay disabled, wide
viewport, visible but never started. -/
def noAutoplayState : Acc :=
  run dur3000 (initAccordion true true (mkAccordion 2 false false)) [Op.visibility 0 true true true]

/-- Decimal value of a digit string (most significant first). -/
def natFromDigits (ds : List Char) : Nat :=
  ds.foldl (fun a c => 10 * a + (c.toNat - '0'.toNat)) 0

/-- Does the character list contain the two-character run `ms`?  Models
`String.prototype.includes('ms')` on the CSS value. -/
def hasMs : List Char → Bool
  | c1 :: c2 :: rest => (c1 == 'm' && c2 == 's') || hasMs (c2 :: rest)
  | _ => false

/-- Model of JS `parseFloat` on the CSS time values the controller reads:
the longest leading run of digits, optionally followed by `.` and more
digits; `none` models `NaN` (no leading numeric prefix).  Signs, exponents
and leading whitespace do not occur in computed CSS time values and are
out of scope. -/
def jsParseFloat (str : String) : Option ℚ :=
  let cs := str.data
  let ip := cs.takeWhile Char.isDigit
  let rest := cs.dropWhile Char.isDigit
  match rest with
  | '.' :: rest2 =>
      let fp := rest2.takeWhile Char.isDigit
      if ip.isEmpty && fp.isEmpty then none
      else some ((natFromDigits ip : ℚ) + (natFromDigits fp : ℚ) / (10 : ℚ) ^ fp.length)
  | _ => if ip.isEmpty then none else some (natFromDigits ip : ℚ)

/-- `getAnimationDuration()` string pipeline: the empty computed value
(falsy in JS) yields the 5000 ms fallback from `CONFIG.DEFAULTS`;
otherwise a value containing `ms` is parsed as milliseconds and any other
value as seconds scaled by 1000.  `none` models `NaN`. -/
def getAnimationDuration (css : String) : Option ℚ :=
  if css = "" then some (5000 : ℚ)
  else if hasMs css.data then jsParseFloat css
  else (jsParseFloat css).map (fun q => q * 1000)

/-- Active-item invariant on a DOM item list: `n` items, the current
index in range, and an item is marked active exactly when it is the item
at `currentIndex`. -/
def InvL (n : Nat) (l : List Item) (ci : Nat) : Prop :=
  l.length = n ∧ ci < n ∧ ∀ j, j < n → (((l.getD j dItem).active = true) ↔ j = ci)

/-- The active-item invariant of an accordion state. -/
def Inv (n : Nat) (s : Acc) : Prop := InvL n s.items s.currentIndex

/-! ### List helper lemmas -/

@[simp]
lemma length_modifyItem (l : List Item) (i : Nat) (f : Item → Item) :
    (modifyItem l i f).length = l.length := by
  induction l generalizing i with
  | nil => rfl
  | cons it rest ih =>
    cases i with
    | zero => rfl
    | succ n => simp [modifyItem, ih]

lemma getD_modifyItem (l : List Item) (i : Nat) (f : Item → Item) (j : Nat) (d : Item) :
    (modifyItem l i f).getD j d =
      if j = i ∧ j < l.length then f (l.getD j d) else l.getD j d := by
  induction l generalizing i j with
  | nil => simp [modifyItem]
  | cons it rest ih =>
    cases i with
    | zero =>
      cases j with
      | zero => simp [modifyItem]
      | succ m => simp [modifyItem]
    | succ n =>
      cases j with
      | zero => simp [modifyItem]
      | succ m =>
        simp only [modifyItem, List.getD_cons_succ, List.length_cons, ih]
        have hc : (m + 1 = n + 1 ∧ m + 1 < rest.length + 1) ↔ (m = n ∧ m < rest.length) := by
          omega
        simp [hc]

lemma getD_map_lt (g : Item → Item) (l : List Item) (j : Nat) (d : Item)
    (h : j < l.length) : (l.map g).getD j d = g (l.getD j d) := by
  induction l generalizing j with
  | nil => simp at h
  | cons it rest ih =>
    cases j with
    | zero => simp
    | succ m =>
      simp only [List.map_cons, List.getD_cons_succ]
      exact ih m (by simpa using h)

/-! ### Projection lemmas: which fields each primitive leaves alone -/

@[simp]
lemma items_clearTimer (s : Acc) : (clearTimer s).items = s.items := by
  rcases h : s.timeoutId with _ | id <;> simp [clearTimer, h]

@[simp]
lemma currentIndex_clearTimer (s : Acc) : (clearTimer s).currentIndex = s.currentIndex := by
  rcases h : s.timeoutId with _ | id <;> simp [clearTimer, h]

@[simp]
lemma items_setTimeout (now delay : Nat) (s : Acc) : (setTimeout now delay s).items = s.items := rfl

@[simp]
lemma currentIndex_setTimeout (now delay : Nat) (s : Acc) :
    (setTimeout now delay s).currentIndex = s.currentIndex := rfl

@[simp]
lemma items_scheduleNextItem (dur : Nat → Nat) (now : Nat) (s : Acc) :
    (scheduleNextItem dur now s).items = s.items := by
  unfold scheduleNextItem; split <;> rfl

@[simp]
lemma currentIndex_scheduleNextItem (dur : Nat → Nat) (now : Nat) (s : Acc) :
    (scheduleNextItem dur now s).currentIndex = s.currentIndex := by
  unfold scheduleNextItem; split <;> rfl

@[simp]
lemma items_initSlider (ev : Bool) (s : Acc) : (initSlider ev s).items = s.items := by
  unfold initSlider; split_ifs <;> rfl

@[simp]
lemma currentIndex_initSlider (ev : Bool) (s : Acc) :
    (initSlider ev s).currentIndex = s.currentIndex := by
  unfold initSlider; split_ifs <;> rfl

@[simp]
lemma wasUserPaused_initSlider (ev : Bool) (s : Acc) :
    (initSlider ev s).wasUserPaused = s.wasUserPaused := by
  unfold initSlider; split_ifs <;> rfl

@[simp]
lemma isPaused_initSlider (ev : Bool) (s : Acc) : (initSlider ev s).isPaused = s.isPaused := by
  unfold initSlider; split_ifs <;> rfl

@[simp]
lemma pending_initSlider (ev : Bool) (s : Acc) : (initSlider ev s).pending = s.pending := by
  unfold initSlider; split_ifs <;> rfl

@[simp]
lemma timeoutId_initSlider (ev : Bool) (s : Acc) :
    (initSlider ev s).timeoutId = s.timeoutId := by
  unfold initSlider; split_ifs <;> rfl

@[simp]
lemma remainingTime_initSlider (ev : Bool) (s : Acc) :
    (initSlider ev s).remainingTime = s.remainingTime := by
  unfold initSlider; split_ifs <;> rfl

@[simp]
lemma items_destroySlider (s : Acc) : (destroySlider s).items = s.items := by
  unfold destroySlider; split_ifs <;> rfl

@[simp]
lemma currentIndex_destroySlider (s : Acc) : (destroySlider s).currentIndex = s.currentIndex := by
  unfold destroySlider; split_ifs <;> rfl

/-! ### Preservation of the active-item invariant -/

lemma InvL_modifyPaused (n : Nat) (l : List Item) (ci k : Nat) (b : Bool)
    (h : InvL n l ci) : InvL n (modifyItem l k (fun it => { it with paused := b })) ci := by
  obtain ⟨h1, h2, h3⟩ := h
  refine ⟨by simp [h1], h2, ?_⟩
  intro j hj
  rw [getD_modifyItem]
  split
  · exact h3 j hj
  · exact h3 j hj

lemma updateActiveItem_inv (n : Nat) (s : Acc) (k : Nat) (u : Bool)
    (hlen : s.items.length = n) (hk : k < n) : Inv n (updateActiveItem k u s) := by
  unfold Inv InvL updateActiveItem
  refine ⟨?_, hk, ?_⟩
  · split <;> simp [hlen]
  · intro j hj
    have hjl : j < s.items.length := by simpa [hlen] using hj
    split
    · rw [getD_modifyItem]
      split
      · rw [getD_modifyItem]
        split
        · simp_all
        · next hcj hcj2 =>
          exfalso
          exact hcj2 ⟨hcj.1, by simpa [length_modifyItem] using hcj.2⟩
      · next hcj =>
        rw [getD_modifyItem]
        split
        · next hc2 =>
          exfalso
          exact hcj ⟨hc2.1, by simpa [length_modifyItem] using hc2.2⟩
        · rw [getD_map_lt _ _ _ _ hjl]
          simp
          intro hjk
          exact absurd ⟨hjk, by simpa [hlen] using hj⟩ hcj
    · rw [getD_modifyItem]
      split
      · simp_all
      · next hcj =>
        rw [getD_map_lt _ _ _ _ hjl]
        simp
        intro hjk
        exact absurd ⟨hjk, by simpa [hlen] using hj⟩ hcj

lemma inv_of_same (n : Nat) (s t : Acc) (hitems : t.items = s.items)
    (hci : t.currentIndex = s.currentIndex) (h : Inv n s) : Inv n t := by
  unfold Inv at *
  rw [hitems, hci]
  exact h

lemma inv_scheduleNextItem (n : Nat) (dur : Nat → Nat) (now : Nat) (s : Acc)
    (h : Inv n s) : Inv n (scheduleNextItem dur now s) :=
  inv_of_same n s _ (by simp) (by simp) h

lemma inv_clearTimer (n : Nat) (s : Acc) (h : Inv n s) : Inv n (clearTimer s) :=
  inv_of_same n s _ (by simp) (by simp) h

lemma inv_showItem (n : Nat) (dur : Nat → Nat) (now : Nat) (idx : Int) (u : Bool)
    (s : Acc) (h : Inv n s) : Inv n (showItem dur now idx u s) := by
  unfold showItem
  split
  · exact h
  · next hc =>
    apply inv_scheduleNextItem
    apply updateActiveItem_inv
    · simpa using h.1
    · have h1 : ¬ idx < 0 ∧ ¬ (s.items.length : Int) ≤ idx := by simpa using hc
      have h2 : s.items.length = n := h.1
      omega

lemma inv_pauseAnimation (n : Nat) (now : Nat) (s : Acc) (h : Inv n s) :
    Inv n (pauseAnimation now s) := by
  unfold pauseAnimation
  split
  · unfold Inv
    simp only [items_clearTimer, currentIndex_clearTimer]
    exact InvL_modifyPaused n _ _ _ _ h
  · exact h

lemma inv_resumeAnimation (n : Nat) (dur : Nat → Nat) (now : Nat) (s : Acc)
    (h : Inv n s) : Inv n (resumeAnimation dur now s) := by
  unfold resumeAnimation
  split
  · dsimp only
    split
    · unfold Inv
      simp only [items_scheduleNextItem, currentIndex_scheduleNextItem]
      exact InvL_modifyPaused n _ _ _ _ h
    · unfold Inv
      simp only [items_setTimeout, currentIndex_setTimeout]
      exact InvL_modifyPaused n _ _ _ _ h
  · split
    · exact inv_scheduleNextItem n dur now s h
    · exact h

lemma inv_pause (n : Nat) (now : Nat) (s : Acc) (h : Inv n s) : Inv n (pause now s) := by
  unfold pause
  split
  · exact h
  · dsimp only
    split
    · unfold Inv
      simp only [items_clearTimer, currentIndex_clearTimer]
      exact InvL_modifyPaused n _ _ _ _ h
    · unfold Inv
      simp only [items_clearTimer, currentIndex_clearTimer]
      exact InvL_modifyPaused n _ _ _ _ h

lemma inv_resume (n : Nat) (dur : Nat → Nat) (now : Nat) (s : Acc) (h : Inv n s) :
    Inv n (resume dur now s) := by
  unfold resume
  split
  · exact h
  · dsimp only
    split
    · split
      · unfold Inv
        simp only [items_scheduleNextItem, currentIndex_scheduleNextItem]
        exact InvL_modifyPaused n _ _ _ _ h
      · unfold Inv
        simp only [items_setTimeout, currentIndex_setTimeout]
        exact InvL_modifyPaused n _ _ _ _ h
    · exact InvL_modifyPaused n _ _ _ _ h

lemma inv_onVisibilityChange (n : Nat) (dur : Nat → Nat) (now : Nat)
    (visible wide ev : Bool) (s : Acc) (h : Inv n s) :
    Inv n (onVisibilityChange dur now visible wide ev s) := by
  unfold onVisibilityChange
  have h1 : Inv n { s with isVisible := visible } := h
  dsimp only
  split
  · split
    · split
      · apply inv_resumeAnimation
        exact inv_of_same n _ _ (by simp) (by simp) h
      · exact inv_of_same n _ _ (by simp) (by simp) h
    · split
      · exact inv_resumeAnimation n dur now _ h1
      · exact h1
  · exact inv_pauseAnimation n now _ h1

lemma inv_fireTimer (n : Nat) (dur : Nat → Nat) (now id : Nat) (s : Acc)
    (h : Inv n s) : Inv n (fireTimer dur now id s) := by
  unfold fireTimer
  split
  · split
    · exact inv_showItem n dur now _ true _ h
    · exact h
  · exact h

lemma inv_handleItemClick (n : Nat) (dur : Nat → Nat) (now : Nat) (wide found : Bool)
    (idx : Int) (s : Acc) (h : Inv n s) : Inv n (handleItemClick dur now wide found idx s) := by
  unfold handleItemClick
  split
  · exact h
  · split
    · exact inv_showItem n dur now idx true s h
    · exact h

lemma inv_handleOrientationChange (n : Nat) (wide ev : Bool) (s : Acc) (h : Inv n s) :
    Inv n (handleOrientationChange wide ev s) := by
  unfold handleOrientationChange
  split
  · exact inv_of_same n _ _ (by simp) (by simp) h
  · split
    · exact inv_of_same n _ _ (by simp) (by simp) h
    · exact h

lemma inv_applyOp (n : Nat) (dur : Nat → Nat) (s : Acc) (op : Op) (h : Inv n s) :
    Inv n (applyOp dur s op) := by
  cases op with
  | visibility now v w ev => exact inv_onVisibilityChange n dur now v w ev s h
  | userPause now => exact inv_pause n now s h
  | userResume now => exact inv_resume n dur now s h
  | togglePauseBtn now =>
    simp only [applyOp]
    unfold togglePause
    split
    · exact inv_resume n dur now s h
    · exact inv_pause n now s h
  | click now w f i => exact inv_handleItemClick n dur now w f i s h
  | hover now w bf f i =>
    simp only [applyOp]
    unfold handleMouseEnterItem
    split
    · split
      · exact inv_handleItemClick n dur now w f i s h
      · exact h
    · exact h
  | slideChanged now i => exact inv_showItem n dur now i false s h
  | fire now id => exact inv_fireTimer n dur now id s h
  | resize w ev => exact inv_handleOrientationChange n w ev s h

lemma inv_run (n : Nat) (dur : Nat → Nat) (s : Acc) (ops : List Op) (h : Inv n s) :
    Inv n (run dur s ops) := by
  induction ops generalizing s with
  | nil => exact h
  | cons op rest ih => exact ih (applyOp dur s op) (inv_applyOp n dur s op h)

lemma inv_initAccordion (n : Nat) (autoplay layout2 wide ev : Bool) (hn : 0 < n) :
    Inv n (initAccordion wide ev (mkAccordion n autoplay layout2)) := by
  unfold initAccordion
  have hlen : (mkAccordion n autoplay layout2).items.length = n := by
    simp [mkAccordion]
  have hguard : ((mkAccordion n autoplay layout2).items.length == 0) = false := by
    simp [hlen]
    omega
  rw [hguard]
  simp only [Bool.false_eq_true, if_false]
  have hupd : Inv n (updateActiveItem 0 false (mkAccordion n autoplay layout2)) :=
    updateActiveItem_inv n _ 0 false hlen hn
  split
  · exact inv_of_same n _ _ (by simp) (by simp) hupd
  · exact hupd

lemma countP_active_eq_one (l : List Item) (k : Nat) (hk : k < l.length)
    (h : ∀ j, j < l.length → (((l.getD j dItem).active = true) ↔ j = k)) :
    l.countP (fun it => it.active) = 1 := by
  induction l generalizing k with
  | nil => simp at hk
  | cons it rest ih =>
    cases k with
    | zero =>
      have h0 : it.active = true := (h 0 (Nat.succ_pos _)).mpr rfl
      have hz : rest.countP (fun it => it.active) = 0 := by
        rw [List.countP_eq_zero]
        intro a ha
        obtain ⟨j, hj, hja⟩ := List.mem_iff_getElem.mp ha
        have hgd : rest.getD j dItem = a := by
          rw [List.getD_eq_getElem rest dItem hj]
          exact hja
        have := h (j + 1) (Nat.succ_lt_succ hj)
        simp only [List.getD_cons_succ, hgd] at this
        intro hact
        exact Nat.succ_ne_zero j (this.mp hact)
      rw [List.countP_cons_of_pos _ _ (by simpa using h0), hz]
    | succ m =>
      have h0 : ¬ it.active = true := by
        intro hact
        have h00 : (0 : Nat) = m + 1 := (h 0 (Nat.succ_pos _)).mp hact
        exact Nat.succ_ne_zero m h00.symm
      rw [List.countP_cons_of_neg _ _ (by simpa using h0)]
      apply ih m (Nat.lt_of_succ_lt_succ hk)
      intro j hj
      have := h (j + 1) (Nat.succ_lt_succ hj)
      simpa using this

/-- C4: for every event sequence delivered to an initialized accordion
with a non-empty item list, exactly one item carries the active flag, it
is the item at `currentIndex`, and `currentIndex` stays inside
`[0, items.length)`. -/
theorem c4_single_active_item (dur : Nat → Nat) (n : Nat) (autoplay layout2 wide ev : Bool)
    (ops : List Op) (hn : 0 < n) :
    (run dur (initAccordion wide ev (mkAccordion n autoplay layout2)) ops).items.length = n ∧
    (run dur (initAccordion wide ev (mkAccordion n autoplay layout2)) ops).currentIndex <
      (run dur (initAccordion wide ev (mkAccordion n autoplay layout2)) ops).items.length ∧
    (run dur (initAccordion wide ev (mkAccordion n autoplay layout2)) ops).items.countP
      (fun it => it.active) = 1 ∧
    ∀ j, j < (run dur (initAccordion wide ev (mkAccordion n autoplay layout2)) ops).items.length →
      ((((run dur (initAccordion wide ev (mkAccordion n autoplay layout2)) ops).items.getD j
          dItem).active = true) ↔
        j = (run dur (initAccordion wide ev (mkAccordion n autoplay layout2)) ops).currentIndex) := by
  have hinv : Inv n (run dur (initAccordion wide ev (mkAccordion n autoplay layout2)) ops) :=
    inv_run n dur _ ops (inv_initAccordion n autoplay layout2 wide ev hn)
  obtain ⟨h1, h2, h3⟩ := hinv
  refine ⟨h1, by rw [h1]; exact h2, ?_, ?_⟩
  · exact countP_active_eq_one _ _ (by rw [h1]; exact h2) (by rw [h1]; exact h3)
  · rw [h1]
    exact h3

/-- C4 witness: a concrete two-item accordion after a visibility event and
a timer fire. -/
theorem c4_single_active_item_witness :
    (0 : Nat) < 2 ∧
    ((run dur3000 (initAccordion true true (mkAccordion 2 true false))
        [Op.visibility 0 true true true, Op.fire 3000 0]).items.length = 2 ∧
      (run dur3000 (initAccordion true true (mkAccordion 2 true false))
        [Op.visibility 0 true true true, Op.fire 3000 0]).currentIndex <
        (run dur3000 (initAccordion true true (mkAccordion 2 true false))
          [Op.visibility 0 true true true, Op.fire 3000 0]).items.length ∧
      (run dur3000 (initAccordion true true (mkAccordion 2 true false))
        [Op.visibility 0 true true true, Op.fire 3000 0]).items.countP
        (fun it => it.active) = 1 ∧
      ∀ j, j < (run dur3000 (initAccordion true true (mkAccordion 2 true false))
          [Op.visibility 0 true true true, Op.fire 3000 0]).items.length →
        ((((run dur3000 (initAccordion true true (mkAccordion 2 true false))
            [Op.visibility 0 true true true, Op.fire 3000 0]).items.getD j
            dItem).active = true) ↔
          j = (run dur3000 (initAccordion true true (mkAccordion 2 true false))
            [Op.visibility 0 true true true, Op.fire 3000 0]).currentIndex)) :=
  ⟨by decide,
    c4_single_active_item dur3000 2 true false true true
      [Op.visibility 0 true true true, Op.fire 3000 0] (by decide)⟩

lemma onVis_true_userPaused (dur : Nat → Nat) (now : Nat) (wide ev : Bool) (s : Acc)
    (hu : s.wasUserPaused = true) :
    onVisibilityChange dur now true wide ev s =
      if !wide && !s.slider then initSlider ev { s with isVisible := true }
      else { s with isVisible := true } := by
  unfold onVisibilityChange
  dsimp only
  rw [if_pos rfl]
  split
  · rw [if_neg (by simp [hu])]
  · rw [if_neg (by simp [hu])]

/-- C3: once the user has paused, a visibility-driven resume notification
leaves the controller paused and arms nothing: `onVisibilityChange(true)`
preserves both pause flags, the live timers and the timer handle, the
remaining-time snapshot, and the DOM item state, until `userResume` clears
`wasUserPaused`. -/
theorem c3_user_pause_precedence (dur : Nat → Nat) (now : Nat) (wide ev : Bool) (s : Acc)
    (hu : s.wasUserPaused = true) (hp : s.isPaused = true) :
    (onVisibilityChange dur now true wide ev s).isPaused = true ∧
    (onVisibilityChange dur now true wide ev s).wasUserPaused = true ∧
    (onVisibilityChange dur now true wide ev s).pending = s.pending ∧
    (onVisibilityChange dur now true wide ev s).timeoutId = s.timeoutId ∧
    (onVisibilityChange dur now true wide ev s).remainingTime = s.remainingTime ∧
    (onVisibilityChange dur now true wide ev s).items = s.items ∧
    (onVisibilityChange dur now true wide ev s).currentIndex = s.currentIndex := by
  rw [onVis_true_userPaused dur now wide ev s hu]
  split <;> simp [hu, hp]

/-- C3 witness: a user-paused running accordion stays paused through a
visible notification. -/
theorem c3_user_pause_precedence_witness :
    (run dur3000 wideStart [Op.visibility 0 true true true, Op.userPause 1000]).wasUserPaused
        = true ∧
    (run dur3000 wideStart [Op.visibility 0 true true true, Op.userPause 1000]).isPaused = true ∧
    ((onVisibilityChange dur3000 2000 true true true
        (run dur3000 wideStart [Op.visibility 0 true true true, Op.userPause 1000])).isPaused
          = true ∧
      (onVisibilityChange dur3000 2000 true true true
        (run dur3000 wideStart [Op.visibility 0 true true true, Op.userPause 1000])).wasUserPaused
          = true ∧
      (onVisibilityChange dur3000 2000 true true true
        (run dur3000 wideStart [Op.visibility 0 true true true, Op.userPause 1000])).pending =
        (run dur3000 wideStart [Op.visibility 0 true true true, Op.userPause 1000]).pending ∧
      (onVisibilityChange dur3000 2000 true true true
        (run dur3000 wideStart [Op.visibility 0 true true true, Op.userPause 1000])).timeoutId =
        (run dur3000 wideStart [Op.visibility 0 true true true, Op.userPause 1000]).timeoutId ∧
      (onVisibilityChange dur3000 2000 true true true
        (run dur3000 wideStart [Op.visibility 0 true true true, Op.userPause 1000])).remainingTime =
        (run dur3000 wideStart [Op.visibility 0 true true true, Op.userPause 1000]).remainingTime ∧
      (onVisibilityChange dur3000 2000 true true true
        (run dur3000 wideStart [Op.visibility 0 true true true, Op.userPause 1000])).items =
        (run dur3000 wideStart [Op.visibility 0 true true true, Op.userPause 1000]).items ∧
      (onVisibilityChange dur3000 2000 true true true
        (run dur3000 wideStart [Op.visibility 0 true true true, Op.userPause 1000])).currentIndex =
        (run dur3000 wideStart [Op.visibility 0 true true true, Op.userPause 1000]).currentIndex) :=
  ⟨by decide, by decide,
    c3_user_pause_precedence dur3000 2000 true true
      (run dur3000 wideStart [Op.visibility 0 true true true, Op.userPause 1000])
      (by decide) (by decide)⟩

/-- C6: a firing auto-advance timer moves `currentIndex` to
`(currentIndex + 1) mod items.length`; in particular, firing on the last
index wraps to index 0. -/
theorem c6_advance_wraps (dur : Nat → Nat) (now id t : Nat) (s : Acc)
    (hfind : s.pending.find? (fun p => p.1 == id) = some (id, t))
    (ht : t ≤ now) (hlen : 0 < s.items.length) :
    (fireTimer dur now id s).currentIndex = (s.currentIndex + 1) % s.items.length ∧
    (s.currentIndex = s.items.length - 1 → (fireTimer dur now id s).currentIndex = 0) := by
  have hk : (s.currentIndex + 1) % s.items.length < s.items.length :=
    Nat.mod_lt _ hlen
  have hmain : (fireTimer dur now id s).currentIndex =
      (s.currentIndex + 1) % s.items.length := by
    unfold fireTimer
    simp only [hfind]
    rw [if_pos ht]
    unfold showItem
    dsimp only
    rw [if_neg]
    · simp only [currentIndex_scheduleNextItem]
      simp only [updateActiveItem, Int.toNat_natCast]
    · simp only [Bool.or_eq_true, decide_eq_true_eq, not_or]
      omega
  refine ⟨hmain, fun hlast => ?_⟩
  rw [hmain, hlast, Nat.sub_add_cancel hlen, Nat.mod_self]

/-- C6 witness: the two-item carousel accordion wraps from index 1
(computed as (0+1) mod 2) and satisfies the mod formula. -/
theorem c6_advance_wraps_witness :
    carouselState.pending.find? (fun p => p.1 == 0) = some (0, 3000) ∧
    (3000 : Nat) ≤ 3000 ∧ (0 : Nat) < carouselState.items.length ∧
    ((fireTimer dur3000 3000 0 carouselState).currentIndex =
        (carouselState.currentIndex + 1) % carouselState.items.length ∧
      (carouselState.currentIndex = carouselState.items.length - 1 →
        (fireTimer dur3000 3000 0 carouselState).currentIndex = 0)) :=
  ⟨by decide, by decide, by decide,
    c6_advance_wraps dur3000 3000 0 3000 carouselState (by decide) (by decide) (by decide)⟩

/-- C7: when paused and visible, `resume` on a controller that never
started arms a timer for the full duration of the current item (not the
zero remaining time), while a controller that has started re-arms the
snapshotted remaining time. -/
theorem c7_first_resume_full_duration (dur : Nat → Nat) (now : Nat) (s : Acc)
    (hp : s.isPaused = true) (hv : s.isVisible = true) :
    (s.hasStartedAnimation = false →
      (resume dur now s).pending = s.pending ++ [(s.nextId, now + dur s.currentIndex)] ∧
      (resume dur now s).hasStartedAnimation = true ∧
      (resume dur now s).duration = dur s.currentIndex ∧
      (resume dur now s).remainingTime = dur s.currentIndex) ∧
    (s.hasStartedAnimation = true →
      (resume dur now s).pending = s.pending ++ [(s.nextId, now + s.remainingTime)] ∧
      (resume dur now s).startTime = now) := by
  constructor
  · intro h0
    simp [resume, hp, hv, h0, scheduleNextItem, setTimeout]
  · intro h1
    simp [resume, hp, hv, h1, setTimeout]

/-- C7 witness: the never-started autoplay-disabled accordion resumes with
the full 3000 ms duration; the started example state resumes with the
snapshot. -/
theorem c7_first_resume_full_duration_witness :
    noAutoplayState.isPaused = true ∧ noAutoplayState.isVisible = true ∧
    ((noAutoplayState.hasStartedAnimation = false →
      (resume dur3000 500 noAutoplayState).pending =
        noAutoplayState.pending ++
          [(noAutoplayState.nextId, 500 + dur3000 noAutoplayState.currentIndex)] ∧
      (resume dur3000 500 noAutoplayState).hasStartedAnimation = true ∧
      (resume dur3000 500 noAutoplayState).duration = dur3000 noAutoplayState.currentIndex ∧
      (resume dur3000 500 noAutoplayState).remainingTime =
        dur3000 noAutoplayState.currentIndex) ∧
    (noAutoplayState.hasStartedAnimation = true →
      (resume dur3000 500 noAutoplayState).pending =
        noAutoplayState.pending ++ [(noAutoplayState.nextId, 500 + noAutoplayState.remainingTime)] ∧
      (resume dur3000 500 noAutoplayState).startTime = 500)) :=
  ⟨by decide, by decide,
    c7_first_resume_full_duration dur3000 500 noAutoplayState (by decide) (by decide)⟩

/-- C2: pausing a running item of duration `D` at elapsed time `E ≤ D`
records `remainingTime = D - E`; resuming at time `r` arms exactly one
timer due at `r + (D - E)` (a continuation, not a restart), a fire
attempted before that instant does nothing, and the fire at that instant
advances to the next item. -/
theorem c2_remaining_time_conservation (dur : Nat → Nat) (s : Acc) (D E t0 r tid ft : Nat)
    (hp : s.isPaused = false) (hs : s.hasStartedAnimation = true)
    (hv : s.isVisible = true) (hD : s.duration = D) (ht0 : s.startTime = t0)
    (hE : E ≤ D) (hpend : s.pending = [(tid, ft)]) (htid : s.timeoutId = some tid)
    (hlen : 0 < s.items.length) :
    (pause (t0 + E) s).remainingTime = D - E ∧
    (resume dur r (pause (t0 + E) s)).pending = [(s.nextId, r + (D - E))] ∧
    (∀ t, t < r + (D - E) →
      fireTimer dur t s.nextId (resume dur r (pause (t0 + E) s)) =
        resume dur r (pause (t0 + E) s)) ∧
    (fireTimer dur (r + (D - E)) s.nextId
        (resume dur r (pause (t0 + E) s))).currentIndex =
      (s.currentIndex + 1) % s.items.length := by
  have hpause : pause (t0 + E) s =
      { s with
        wasUserPaused := true
        isPaused := true
        pending := []
        timeoutId := none
        remainingTime := D - E
        items := modifyItem s.items s.currentIndex
          (fun it => { it with paused := true }) } := by
    unfold pause
    rw [if_neg (by simp [hp])]
    dsimp only
    unfold clearTimer
    dsimp only
    simp only [htid, hpend, hs, hD, ht0]
    simp [Nat.add_sub_cancel_left]
  have hresume : resume dur r (pause (t0 + E) s) =
      { s with
        wasUserPaused := false
        isPaused := false
        pending := [(s.nextId, r + (D - E))]
        timeoutId := some s.nextId
        nextId := s.nextId + 1
        remainingTime := D - E
        startTime := r
        items := modifyItem
          (modifyItem s.items s.currentIndex (fun it => { it with paused := true }))
          s.currentIndex (fun it => { it with paused := false }) } := by
    rw [hpause]
    unfold resume
    rw [if_neg (by simp)]
    dsimp only
    rw [if_pos (by simpa using hv)]
    rw [if_neg (by simp [hs])]
    simp [setTimeout]
  have hk : (s.currentIndex + 1) % s.items.length < s.items.length := Nat.mod_lt _ hlen
  refine ⟨by rw [hpause], by rw [hresume], ?_, ?_⟩
  · intro t htl
    rw [hresume]
    unfold fireTimer
    dsimp only
    simp only [List.find?, beq_self_eq_true]
    rw [if_neg (by omega)]
  · rw [hresume]
    unfold fireTimer
    dsimp only
    simp only [List.find?, beq_self_eq_true]
    rw [if_pos (le_refl _)]
    unfold showItem
    dsimp only
    rw [if_neg]
    · simp only [currentIndex_scheduleNextItem]
      simp only [updateActiveItem, length_modifyItem, Int.toNat_natCast]
    · simp only [Bool.or_eq_true, decide_eq_true_eq, not_or, length_modifyItem]
      omega

/-- C2 witness: the spec's worked example — item 1 (duration 5000) paused
at t=4500 after 1500 ms leaves 3500 ms; resuming at t=10000 arms the
advance for t=13500, firing earlier does nothing. -/
theorem c2_remaining_time_conservation_witness :
    exampleRunState.isPaused = false ∧ exampleRunState.hasStartedAnimation = true ∧
    exampleRunState.isVisible = true ∧ exampleRunState.duration = 5000 ∧
    exampleRunState.startTime = 3000 ∧ (1500 : Nat) ≤ 5000 ∧
    exampleRunState.pending = [(1, 8000)] ∧ exampleRunState.timeoutId = some 1 ∧
    (0 : Nat) < exampleRunState.items.length ∧
    ((pause (3000 + 1500) exampleRunState).remainingTime = 5000 - 1500 ∧
      (resume exampleDur 10000 (pause (3000 + 1500) exampleRunState)).pending =
        [(exampleRunState.nextId, 10000 + (5000 - 1500))] ∧
      (∀ t, t < 10000 + (5000 - 1500) →
        fireTimer exampleDur t exampleRunState.nextId
            (resume exampleDur 10000 (pause (3000 + 1500) exampleRunState)) =
          resume exampleDur 10000 (pause (3000 + 1500) exampleRunState)) ∧
      (fireTimer exampleDur (10000 + (5000 - 1500)) exampleRunState.nextId
          (resume exampleDur 10000 (pause (3000 + 1500) exampleRunState))).currentIndex =
        (exampleRunState.currentIndex + 1) % exampleRunState.items.length) :=
  ⟨by decide, by decide, by decide, by decide, by decide, by decide, by decide, by decide,
    by decide,
    c2_remaining_time_conservation exampleDur exampleRunState 5000 1500 3000 10000 1 8000
      (by decide) (by decide) (by decide) (by decide) (by decide) (by decide) (by decide)
      (by decide) (by decide)⟩

/-- C1: the claim that at most one pending auto-advance timer ever exists
fails on the code.  After `dupTimerOps` (visible, user pause at elapsed =
duration so the snapshot is 0, user resume arming a zero-delay timer, then
a redundant visible notification) the `remainingTime === 0` branch of
`resumeAnimation` schedules again without cancelling, leaving two live
timers at once. -/
theorem c1_duplicate_timers_bug :
    dupTimerState.pending = [(1, 4000), (2, 7000)] ∧
    dupTimerState.pending.length = 2 ∧ dupTimerState.timeoutId = some 2 := by
  decide

/-- C5: the claim that no timer is pending while invisible (and that no
advance fires while invisible) fails on the code.  Continuing the
duplicate-timer trace, scrolling out of view cancels only the tracked
timer: the stale zero-delay timer stays pending while `isVisible` is
false, and its firing advances `currentIndex` from 0 to 1 while the
accordion is not visible. -/
theorem c5_invisible_fire_bug :
    (invisibleTimerState.isVisible = false ∧ invisibleTimerState.pending = [(1, 4000)] ∧
      invisibleTimerState.currentIndex = 0) ∧
    invisibleAdvanceState.isVisible = false ∧ invisibleAdvanceState.currentIndex = 1 := by
  decide

/-- C8 counterexample: a carousel `slideChanged` notification at the
current index (`0 = currentIndex`) is not a silent no-op — it restarts the
pending timer (and the timing fields), contradicting the claim that
navigation at the current index never changes timer state. -/
theorem c8_noop_counterexample :
    carouselState.currentIndex = 0 ∧
    (applyOp dur3000 carouselState (Op.slideChanged 1000 0)).pending ≠
      carouselState.pending ∧
    applyOp dur3000 carouselState (Op.slideChanged 1000 0) ≠ carouselState := by
  decide

/-- C8 amended: header-click navigation is a silent no-op when the click
resolves to the current index, resolves to no item, or arrives in narrow
mode, and `showItem` is a silent no-op for out-of-range indices; the
carousel `slideChanged` path, however, re-enters `showItem` even at the
current index (see the counterexample). -/
theorem c8_amended_noop (dur : Nat → Nat) (now : Nat) (wide found : Bool) (idx : Int)
    (u : Bool) (s : Acc) :
    (handleItemClick dur now wide found (s.currentIndex : Int) s = s) ∧
    (found = false → handleItemClick dur now wide found idx s = s) ∧
    (wide = false → handleItemClick dur now wide found idx s = s) ∧
    ((idx < 0 ∨ (s.items.length : Int) ≤ idx) → showItem dur now idx u s = s) := by
  refine ⟨?_, ?_, ?_, ?_⟩
  · unfold handleItemClick
    split
    · rfl
    · rw [if_neg (by simp)]
  · intro hf
    unfold handleItemClick
    rw [if_pos (by simp [hf])]
  · intro hw
    unfold handleItemClick
    rw [if_pos (by simp [hw])]
  · intro hr
    unfold showItem
    rw [if_pos]
    rcases hr with hr | hr <;> simp [hr]

/-- C8 amended witness: concrete no-op cases on the carousel state. -/
theorem c8_amended_noop_witness :
    handleItemClick dur3000 1000 false true 1 carouselState = carouselState ∧
    showItem dur3000 1000 5 true carouselState = carouselState :=
  ⟨(c8_amended_noop dur3000 1000 false true 1 true carouselState).2.2.1 rfl,
    (c8_amended_noop dur3000 1000 false true 5 true carouselState).2.2.2
      (Or.inr (by decide))⟩

/-- C9 counterexample: on the layout-2 accordion in narrow (carousel)
mode, hovering item 1 leaves the state unchanged — the hover path funnels
into `handleItemClick`, whose wide-viewport guard rejects it — so hover
activation does not work in every viewport mode. -/
theorem c9_hover_counterexample :
    hoverLayoutState.isLayout2 = true ∧ hoverLayoutState.currentIndex = 0 ∧
    (1 : Nat) < hoverLayoutState.items.length ∧
    applyOp dur3000 hoverLayoutState (Op.hover 100 false true true 1) = hoverLayoutState := by
  decide

/-- C9 amended: in layout-2 the hover listener is attached regardless of
viewport, but hover activation is subject to the same wide-viewport guard
as clicks: in narrow mode a hover is ignored, while in wide mode hovering
a different valid item activates it. -/
theorem c9_amended_hover (dur : Nat → Nat) (now : Nat) (s : Acc) (i : Nat)
    (h2 : s.isLayout2 = true) (hi : i < s.items.length) (hne : i ≠ s.currentIndex) :
    (applyOp dur s (Op.hover now false true true (i : Int)) = s) ∧
    (applyOp dur s (Op.hover now true true true (i : Int))).currentIndex = i := by
  constructor
  · simp [applyOp, h2, handleMouseEnterItem, handleItemClick]
  · have e1 : applyOp dur s (Op.hover now true true true (i : Int)) =
        handleMouseEnterItem dur now true true true (i : Int) s := by
      simp [applyOp, h2]
    rw [e1]
    unfold handleMouseEnterItem
    rw [if_pos rfl]
    unfold handleItemClick
    rw [if_neg (by simp)]
    rw [if_pos (by
      simp only [Bool.and_eq_true, bne_iff_ne, ne_eq]
      refine ⟨by omega, ?_⟩
      simpa using hne)]
    unfold showItem
    rw [if_neg (by
      simp only [Bool.or_eq_true, decide_eq_true_eq, not_or]
      omega)]
    simp only [currentIndex_scheduleNextItem]
    simp only [updateActiveItem, Int.toNat_natCast]

/-- C9 amended witness: on the concrete layout-2 state, a narrow-mode
hover of item 1 is ignored and a wide-mode hover of item 1 activates it. -/
theorem c9_amended_hover_witness :
    hoverLayoutState.isLayout2 = true ∧ (1 : Nat) < hoverLayoutState.items.length ∧
    (1 : Nat) ≠ hoverLayoutState.currentIndex ∧
    (applyOp dur3000 hoverLayoutState (Op.hover 100 false true true ((1 : Nat) : Int)) =
        hoverLayoutState ∧
      (applyOp dur3000 hoverLayoutState
        (Op.hover 100 true true true ((1 : Nat) : Int))).currentIndex = 1) :=
  ⟨by decide, by decide, by decide,
    c9_amended_hover dur3000 100 hoverLayoutState 1 (by decide) (by decide) (by decide)⟩

lemma hasMs_append_ms (ds : List Char) : hasMs (ds ++ ['m', 's']) = true := by
  induction ds with
  | nil => rfl
  | cons c rest ih =>
    cases rest with
    | nil => simp [hasMs]
    | cons r rs =>
      simp only [List.cons_append] at ih ⊢
      simp [hasMs] at ih ⊢
      simp [ih]

lemma hasMs_of_not_mem (l : List Char) (h : 'm' ∉ l) : hasMs l = false := by
  induction l with
  | nil => rfl
  | cons c1 rest ih =>
    cases rest with
    | nil => rfl
    | cons c2 rs =>
      have hc1 : ¬ (c1 = 'm') := fun hh => h (by simp [hh])
      have hrest : 'm' ∉ c2 :: rs := fun hh => h (List.mem_cons_of_mem _ hh)
      simp only [hasMs]
      rw [ih hrest]
      simp
      intro hmm
      exact absurd hmm hc1

lemma span_digits_append (ds r : List Char) (hd : ∀ c ∈ ds, c.isDigit = true)
    (hr : ∀ x, r.head? = some x → x.isDigit = false) :
    (ds ++ r).takeWhile Char.isDigit = ds ∧ (ds ++ r).dropWhile Char.isDigit = r := by
  induction ds with
  | nil =>
    cases r with
    | nil => exact ⟨rfl, rfl⟩
    | cons x rs =>
      have hx := hr x rfl
      constructor
      · simp [List.takeWhile_cons, hx]
      · simp [List.dropWhile_cons, hx]
  | cons c cs ih =>
    have hc : c.isDigit = true := hd c (by simp)
    have hcs : ∀ c ∈ cs, c.isDigit = true := fun c hcm => hd c (by simp [hcm])
    obtain ⟨h1, h2⟩ := ih hcs
    constructor
    · simp [List.takeWhile_cons, hc, h1]
    · simp [List.dropWhile_cons, hc, h2]

lemma mk_ne_empty (l : List Char) (h : l ≠ []) : String.mk l ≠ "" := by
  intro hh
  apply h
  have := congrArg String.data hh
  simpa using this

/-- C10: the CSS duration pipeline returns the 5000 ms fallback on the
empty computed value; a digit string suffixed `ms` parses as that many
milliseconds; a digit string suffixed `s` (or with no unit) parses as
seconds and is scaled by 1000. -/
theorem c10_duration_parsing (ds : List Char) (hne : ds ≠ [])
    (hd : ∀ c ∈ ds, c.isDigit = true) :
    getAnimationDuration "" = some 5000 ∧
    getAnimationDuration (String.mk (ds ++ ['m', 's'])) = some (natFromDigits ds : ℚ) ∧
    getAnimationDuration (String.mk (ds ++ ['s'])) = some ((natFromDigits ds : ℚ) * 1000) ∧
    getAnimationDuration (String.mk ds) = some ((natFromDigits ds : ℚ) * 1000) := by
  have hmd : ('m' : Char).isDigit = false := by decide
  have hem : 'm' ∉ ds := fun hmem => by
    have := hd 'm' hmem
    rw [hmd] at this
    exact Bool.false_ne_true this
  have hnotEmpty : ds.isEmpty = false := by
    cases ds with
    | nil => exact absurd rfl hne
    | cons a b => rfl
  refine ⟨by decide, ?_, ?_, ?_⟩
  · obtain ⟨ht, hdw⟩ := span_digits_append ds ['m', 's'] hd
      (fun x hx => by
        cases hx
        decide)
    unfold getAnimationDuration
    rw [if_neg (mk_ne_empty _ (by simp))]
    have hdata : (String.mk (ds ++ ['m', 's'])).data = ds ++ ['m', 's'] := rfl
    rw [hdata, hasMs_append_ms, if_pos rfl]
    unfold jsParseFloat
    dsimp only
    rw [ht, hdw]
    simp [hnotEmpty]
  · obtain ⟨ht, hdw⟩ := span_digits_append ds ['s'] hd
      (fun x hx => by
        cases hx
        decide)
    have hnm : 'm' ∉ ds ++ ['s'] := by
      intro hmem
      rcases List.mem_append.mp hmem with hmem | hmem
      · exact hem hmem
      · simp at hmem
    unfold getAnimationDuration
    rw [if_neg (mk_ne_empty _ (by simp))]
    have hdata : (String.mk (ds ++ ['s'])).data = ds ++ ['s'] := rfl
    rw [hdata, hasMs_of_not_mem _ hnm]
    simp only [Bool.false_eq_true, if_false]
    unfold jsParseFloat
    dsimp only
    rw [ht, hdw]
    simp [hnotEmpty]
  · obtain ⟨ht, hdw⟩ := span_digits_append ds [] hd (fun x hx => by cases hx)
    unfold getAnimationDuration
    rw [if_neg (mk_ne_empty _ hne)]
    have hdata : (String.mk ds).data = ds := rfl
    rw [hdata, hasMs_of_not_mem _ hem]
    simp only [Bool.false_eq_true, if_false]
    unfold jsParseFloat
    simp only [List.append_nil] at ht hdw
    dsimp only
    rw [ht, hdw]
    simp [hnotEmpty]

/-- C10 witness: the digit string 3000 — empty value gives the fallback,
3000ms gives 3000 ms, 3000s and bare 3000 give 3000000 ms. -/
theorem c10_duration_parsing_witness :
    (['3', '0', '0', '0'] : List Char) ≠ [] ∧
    (∀ c ∈ (['3', '0', '0', '0'] : List Char), c.isDigit = true) ∧
    (getAnimationDuration "" = some 5000 ∧
      getAnimationDuration (String.mk (['3', '0', '0', '0'] ++ ['m', 's'])) =
        some (natFromDigits ['3', '0', '0', '0'] : ℚ) ∧
      getAnimationDuration (String.mk (['3', '0', '0', '0'] ++ ['s'])) =
        some ((natFromDigits ['3', '0', '0', '0'] : ℚ) * 1000) ∧
      getAnimationDuration (String.mk ['3', '0', '0', '0']) =
        some ((natFromDigits ['3', '0', '0', '0'] : ℚ) * 1000)) :=
  ⟨by decide, by decide,
    c10_duration_parsing ['3', '0', '0', '0'] (by decide) (by decide)⟩

end MediaAccordion
